import Mathlib

/-!
Shallow embedding of `generate_resume.py` (ResumeAdapter).

The script is a single linear pipeline: load profile + job description,
look up a named JSON output structure, build a prompt, query a completion
backend, normalize the response (falling back to reshaping the raw
profile), render an HTML template and convert it to PDF (falling back to
writing the HTML).

Modelling conventions:
* Python values that can flow through the pipeline are `PyVal`.
  `PyVal.null` is Python `None` (and JSON `null`); `PyVal.date` models a
  `datetime.date` as produced by `yaml.safe_load` for YAML date scalars —
  a value that `json.dumps` rejects with a `TypeError`.
* Machine-level effects (file reads, network, the PDF converter) are
  oracles packaged in `Env`; every claim is stated relative to those
  oracle results.  The code of the repository itself (lookup logic,
  response cleaning, fallback reshaping, control flow of `main`) is
  translated directly.
* `json.loads` / `json.dumps` are modelled by an executable fuel-based
  JSON parser and serializer over `PyVal`.  The fuel arguments are chosen
  large enough for the recursion depth actually possible (comments at the
  definitions); all parser recursion is structural on the fuel so closed
  terms evaluate by `rfl`.
-/

/-- Kinds of Python exceptions raised in the script (payload is the message). -/
inductive Err where
  | fileNotFound (msg : String)
  | valueError (msg : String)
  | typeError (msg : String)
  | keyError (msg : String)
  | attributeError (msg : String)
  | backendError (msg : String)
deriving DecidableEq, Repr

/-- Observable side effects of one run, in order of occurrence. -/
inductive Event where
  | hostedCall
  | localCall
  | renderCall
  | templateRender
  | pdfAttempt
deriving DecidableEq, Repr

/-- Final outcome of `main`: a top-level caught error, the early return on a
missing JSON structure, or a completed run with or without PDF conversion. -/
inductive Outcome where
  | errorMsg (e : Err)
  | noStructure
  | pdfOk
  | pdfFail
deriving DecidableEq, Repr

/-- Python values flowing through the pipeline.  `obj` is an association
list in insertion order (Python dict keys are unique, lookup is first
match).  `date` models `datetime.date`, which YAML loading can produce and
which is not JSON serializable. -/
inductive PyVal where
  | null
  | bool (b : Bool)
  | int (n : Int)
  | str (s : String)
  | arr (l : List PyVal)
  | obj (m : List (String × PyVal))
  | date (y mo d : Nat)

/-- Double quote character. -/
def qu : Char := Char.ofNat 34

/-- Backslash character. -/
def bsl : Char := Char.ofNat 92

/-- Opening curly brace character. -/
def obr : Char := Char.ofNat 123

/-- Closing curly brace character. -/
def cbr : Char := Char.ofNat 125

/-- Opening square bracket character. -/
def osq : Char := Char.ofNat 91

/-- Closing square bracket character. -/
def csq : Char := Char.ofNat 93

/-- Backtick character. -/
def btick : Char := Char.ofNat 96

/-- Whitespace as treated by Python `str.strip` and the JSON parser
(restricted to the four ASCII whitespace characters that actually occur). -/
def isWs (c : Char) : Bool :=
  c = ' ' || c = '\n' || c = '\t' || c = '\r'

/-- Python `str.strip()`: remove leading and trailing whitespace. -/
def stripChars (l : List Char) : List Char :=
  List.rdropWhile isWs (List.dropWhile isWs l)

/-- First-match lookup in an association list; models `dict` access for
dicts built from parsed JSON (unique keys). -/
def lookupStr (m : List (String × PyVal)) (k : String) : Option PyVal :=
  (m.find? (fun kv => kv.1 = k)).map (fun kv => kv.2)

/-- Python `dict.get(k, d)`. -/
def getD (m : List (String × PyVal)) (k : String) (d : PyVal) : PyVal :=
  (lookupStr m k).getD d

/-- Value denoted by a decimal digit character. -/
def digitVal (c : Char) : Nat := c.toNat - 48

/-- Numeric value of a digit string. -/
def natOfDigits (ds : List Char) : Nat :=
  ds.foldl (fun a c => 10 * a + digitVal c) 0

/-- Parse a maximal run of decimal digits. -/
def parseDigits (cs : List Char) : Option (Nat × List Char) :=
  match cs.takeWhile (fun c => c.isDigit) with
  | [] => none
  | ds => some (natOfDigits ds, cs.dropWhile (fun c => c.isDigit))

/-- Expect a literal character sequence, consuming it. -/
def expectLit (lit : List Char) (cs : List Char) : Option (List Char) :=
  if lit.isPrefixOf cs then some (cs.drop lit.length) else none

/-- Translation of a JSON string escape (second character of a backslash
pair).  The common escapes are mapped; `\uXXXX` escapes are out of scope
for the claims and are modelled as the literal character. -/
def escChar (e : Char) : Char :=
  if e = 'n' then '\n' else if e = 't' then '\t' else if e = 'r' then '\r' else e

/-- Parse the body of a JSON string after the opening quote, returning the
decoded characters and the rest after the closing quote. Fuel-based;
`cs.length` fuel always suffices (one character consumed per step). -/
def parseStrBody : Nat → List Char → Option (List Char × List Char)
  | 0, _ => none
  | _ + 1, [] => none
  | fuel + 1, c :: rest =>
    if c = qu then some ([], rest)
    else if c = bsl then
      match rest with
      | [] => none
      | e :: rest2 => (parseStrBody fuel rest2).map (fun p => (escChar e :: p.1, p.2))
    else (parseStrBody fuel rest).map (fun p => (c :: p.1, p.2))

/-- Drop leading JSON whitespace. -/
def dropWs (cs : List Char) : List Char := cs.dropWhile isWs

/-- Requests of the JSON parser: a value, the members of an object (after
the opening brace), or the elements of an array (after the opening
bracket).  A single request type keeps the recursion structural on fuel. -/
inductive PReq where
  | val (cs : List Char)
  | members (cs : List Char)
  | elements (cs : List Char)

/-- Input characters of a parser request. -/
def PReq.chars : PReq → List Char
  | .val cs => cs
  | .members cs => cs
  | .elements cs => cs

/-- Extract the association list of an object value. -/
def asObj : PyVal → Option (List (String × PyVal))
  | PyVal.obj m => some m
  | _ => none

/-- Extract the element list of an array value. -/
def asArr : PyVal → Option (List PyVal)
  | PyVal.arr l => some l
  | _ => none

/-- Skip whitespace, then expect one given character, consuming it. -/
def expectChar (c : Char) (cs : List Char) : Option (List Char) :=
  match dropWs cs with
  | [] => none
  | c2 :: r => if c2 = c then some r else none

/-- Recursive-descent JSON parser, modelling `json.loads` on the JSON
fragment the script can meet (objects, arrays, strings, integers,
literals).  `members` requests answer with `PyVal.obj`, `elements`
requests with `PyVal.arr`.  Recursion is structural on the fuel; fuel
`2 * cs.length + 2` always suffices since at least one character is
consumed every two nested calls. -/
def parseGo : Nat → PReq → Option (PyVal × List Char)
  | 0, _ => none
  | fuel + 1, .val cs =>
    match dropWs cs with
    | [] => none
    | c :: rest =>
      if c = qu then
        (parseStrBody fuel rest).map (fun p => (PyVal.str (String.mk p.1), p.2))
      else if c = obr then
        match expectChar cbr rest with
        | some r2 => some (PyVal.obj [], r2)
        | none =>
          (parseGo fuel (.members rest)).bind (fun pm =>
            (asObj pm.1).bind (fun m =>
              (expectChar cbr pm.2).map (fun r4 => (PyVal.obj m, r4))))
      else if c = osq then
        match expectChar csq rest with
        | some r2 => some (PyVal.arr [], r2)
        | none =>
          (parseGo fuel (.elements rest)).bind (fun pe =>
            (asArr pe.1).bind (fun l =>
              (expectChar csq pe.2).map (fun r4 => (PyVal.arr l, r4))))
      else if c = 'n' then
        (expectLit (String.toList "ull") rest).map (fun r => (PyVal.null, r))
      else if c = 't' then
        (expectLit (String.toList "rue") rest).map (fun r => (PyVal.bool true, r))
      else if c = 'f' then
        (expectLit (String.toList "alse") rest).map (fun r => (PyVal.bool false, r))
      else if c = '-' then
        (parseDigits rest).map (fun p => (PyVal.int (-(p.1 : Int)), p.2))
      else if c.isDigit then
        (parseDigits (c :: rest)).map (fun p => (PyVal.int (p.1 : Int), p.2))
      else none
  | fuel + 1, .members cs =>
    match dropWs cs with
    | [] => none
    | c :: rest =>
      if c = qu then
        (parseStrBody fuel rest).bind (fun pk =>
          (expectChar ':' pk.2).bind (fun r3 =>
            (parseGo fuel (.val r3)).bind (fun pv =>
              match dropWs pv.2 with
              | c3 :: r5 =>
                if c3 = ',' then
                  (parseGo fuel (.members r5)).bind (fun pm =>
                    (asObj pm.1).map (fun m =>
                      (PyVal.obj ((String.mk pk.1, pv.1) :: m), pm.2)))
                else some (PyVal.obj [(String.mk pk.1, pv.1)], pv.2)
              | [] => some (PyVal.obj [(String.mk pk.1, pv.1)], pv.2))))
      else none
  | fuel + 1, .elements cs =>
    (parseGo fuel (.val cs)).bind (fun pv =>
      match dropWs pv.2 with
      | c :: r2 =>
        if c = ',' then
          (parseGo fuel (.elements r2)).bind (fun pe =>
            (asArr pe.1).map (fun l => (PyVal.arr (pv.1 :: l), pe.2)))
        else some (PyVal.arr [pv.1], pv.2)
      | [] => some (PyVal.arr [pv.1], pv.2))

/-- Model of `json.loads` on a character list: strip surrounding
whitespace, parse one value, require full consumption.  Stripping first
matches the tolerance of `json.loads` for surrounding whitespace. -/
def jsonLoadsChars (cs : List Char) : Option PyVal :=
  match parseGo (2 * (stripChars cs).length + 2) (.val (stripChars cs)) with
  | some (v, rest) => if rest = [] then some v else none
  | none => none

/-- Model of `json.loads` on a string. -/
def jsonLoads (s : String) : Option PyVal := jsonLoadsChars s.toList

/-- The fenced-code-block opening marker stripped by `clean_response`. -/
def fenceOpen : List Char := String.toList "```json"

/-- The fenced-code-block closing marker stripped by `clean_response`. -/
def fenceClose : List Char := String.toList "```"

/-- Core of `clean_response` on string input: strip, drop a leading
fence opening marker (7 characters) if present, drop a trailing closing
marker (3 characters) if present, then `json.loads`.  A parse failure is
the `json.JSONDecodeError` raised by `json.loads`. -/
def cleanStr (r : List Char) : Except Err PyVal :=
  let s0 := stripChars r
  let s1 := if fenceOpen.isPrefixOf s0 then s0.drop 7 else s0
  let s2 := if fenceClose.isSuffixOf s1 then s1.take (s1.length - 3) else s1
  match jsonLoadsChars s2 with
  | some v => Except.ok v
  | none => Except.error (Err.valueError "Expecting value: line 1 column 1")

/-- Translation of `clean_response`: strings are cleaned and parsed, any
non-string input (including Python `None`) is passed through unchanged. -/
def clean_response (response : PyVal) : Except Err PyVal :=
  match response with
  | PyVal.str s => cleanStr s.toList
  | v => Except.ok v

/-- Escape double quotes and backslashes inside a JSON string body. -/
def escapeChars : List Char → List Char
  | [] => []
  | c :: r => if c = qu || c = bsl then bsl :: c :: escapeChars r else c :: escapeChars r

/-- Quote a string as a JSON string literal. -/
def jsonQuote (s : String) : String :=
  String.mk (qu :: escapeChars s.toList ++ [qu])

/-- Model of `json.dumps` with explicit recursion depth.  CPython fails
with `RecursionError` past the interpreter recursion limit (default
1000); the fuel models that limit, so depth never reaches 0 for values
Python can serialize.  A `datetime.date` (possible in a YAML-loaded
profile) raises `TypeError`, exactly as `json.dumps` does.  Indentation
arguments (`indent=2`, `indent=4` at the call sites) only change
whitespace and are not reproduced; no claim depends on the layout. -/
def dumpsF : Nat → PyVal → Except Err String
  | 0, _ => Except.error (Err.valueError "maximum recursion depth exceeded")
  | _ + 1, PyVal.null => Except.ok "null"
  | _ + 1, PyVal.bool true => Except.ok "true"
  | _ + 1, PyVal.bool false => Except.ok "false"
  | _ + 1, PyVal.int n => Except.ok (toString n)
  | _ + 1, PyVal.str s => Except.ok (jsonQuote s)
  | _ + 1, PyVal.date _ _ _ =>
    Except.error (Err.typeError "Object of type date is not JSON serializable")
  | f + 1, PyVal.arr l =>
    (l.mapM (fun x => dumpsF f x)).map
      (fun ps => "[" ++ String.intercalate ", " ps ++ "]")
  | f + 1, PyVal.obj m =>
    (m.mapM (fun kv => (dumpsF f kv.2).map (fun s => jsonQuote kv.1 ++ ": " ++ s))).map
      (fun ps => "\x7b" ++ String.intercalate ", " ps ++ "\x7d")

/-- Model of `json.dumps` at the default CPython recursion limit. -/
def dumps (v : PyVal) : Except Err String := dumpsF 1000 v

/-- Transcription of `get_instructions` (fixed authoring instructions
embedded into every prompt; punctuation simplified, content as in the
source). -/
def get_instructions : String :=
  "- Only include the most relevant experiences (max 4)\n" ++
  "- Prioritize skills that match the job requirements (min 5, max 7)\n" ++
  "- Rewrite achievements to use keywords from the job description\n" ++
  "- Rewrite project DESCRIPTIONS to use keywords from the job description\n" ++
  "- DO NOT add anything to the project NAMES such as Academic or Personal, or related skills.\n" ++
  "- Order everything by relevance to the job\n" ++
  "- Keep it concise and ATS-friendly\n" ++
  "- Use information from user profile to tailor the professional summary to the job\n" ++
  "- When listing technologies used or skiils, PLEASE Title Case them\n" ++
  "- DO NOT MAKE UP INFORMATION.\n" ++
  "- DO NOT USE THE EXACT WORDS GIVEN IN THE EXPERIENCE OR PROJECT DESCRIPTIONS OF USER PROFILE.\n" ++
  "- NEVER EVER USE THE WORD PASSIONATE."

/-- Translation of `generate_prompt`: serialize the profile with
`json.dumps` (which raises on non-serializable values such as YAML
dates) and concatenate the fixed prompt around profile, job description,
JSON structure and instructions.  Note this function sits OUTSIDE the
`try` block of `main` that implements the fallback. -/
def generate_prompt (user_profile : PyVal) (job_description : String)
    (json_structure : String) : Except Err String :=
  (dumps user_profile).map (fun up =>
    "You are an expert resume writer. Given a user profile and a job description, " ++
    "create a tailored resume by selecting and reordering the most relevant information.\n" ++
    "USER PROFILE:\n" ++ up ++
    "\n\nJOB DESCRIPTION:\n" ++ job_description ++
    "\n\nPlease return a JSON object with the tailored resume content using this structure:\n" ++
    json_structure ++
    "\n\nInstructions:\n" ++ get_instructions)

/-- Translation of `format_profile_as_resume`: reshape the raw profile
into the seven top-level output fields, defaulting each absent field to
an empty value.  Python `dict.get` requires a dict; on a non-dict
profile the attribute access raises `AttributeError`. -/
def format_profile_as_resume (profile : PyVal) : Except Err PyVal :=
  match profile with
  | PyVal.obj m =>
    Except.ok (PyVal.obj
      [("name", getD m "name" (PyVal.str "")),
       ("contact", getD m "contact" (PyVal.obj [])),
       ("professional_summary", getD m "professional_summary" (PyVal.str "")),
       ("skills", getD m "skills" (PyVal.arr [])),
       ("experience", getD m "experience" (PyVal.arr [])),
       ("education", getD m "education" (PyVal.arr [])),
       ("projects", getD m "projects" (PyVal.arr []))])
  | _ => Except.error (Err.attributeError "profile has no attribute get")

/-- Python `str.replace(old, new)`: replace every non-overlapping
occurrence, scanning left to right.  Fuel `s.length` suffices for the
non-empty patterns used. -/
def replaceAllF : Nat → List Char → List Char → List Char → List Char
  | 0, s, _, _ => s
  | fuel + 1, s, old, new =>
    match s with
    | [] => []
    | c :: rest =>
      if old.isPrefixOf s then new ++ replaceAllF fuel (s.drop old.length) old new
      else c :: replaceAllF fuel rest old new

/-- Python `str.replace` on strings. -/
def strReplace (s old new : String) : String :=
  String.mk (replaceAllF s.toList.length s.toList old.toList new.toList)

/-- Oracle results of all effects external to the script: environment
variable, file loads, the two completion backends, the PDF converter.
`profileLoad` and `jobLoad` are the outcomes of reading and parsing the
input files (YAML and file-system behaviour is external); `structuresFile`
and `templateFile` are the raw contents of `resume_structures.json` and
the requested template file, `none` when the file does not exist. -/
structure Env where
  apiKey : Option String
  profileLoad : Except Err PyVal
  jobLoad : Except Err String
  structuresFile : Option String
  templateFile : Option String
  hostedResp : Except Err String
  localResp : Except Err PyVal
  pdfConvert : Except Err Unit

/-- Hosted branch of `prompt_llm`: one OpenAI chat completion call; the
oracle is the message content, or the raised network and API error. -/
def hostedFetch (env : Env) : Except Err PyVal :=
  env.hostedResp.map PyVal.str

/-- Local branch of `prompt_llm`: POST to the local inference endpoint,
then `response.json()["response"]`.  A missing key raises `KeyError`;
indexing a non-dict body raises `TypeError`. -/
def localFetch (env : Env) : Except Err PyVal :=
  match env.localResp with
  | Except.error e => Except.error e
  | Except.ok body =>
    match body with
    | PyVal.obj m =>
      match lookupStr m "response" with
      | some v => Except.ok v
      | none => Except.error (Err.keyError "response")
    | _ => Except.error (Err.typeError "response body is not subscriptable")

/-- Translation of `prompt_llm(prompt, model)` with the default model `local-gpt-oss`: an
`if`/`elif` on the model name with no `else`, so any other model name
returns Python `None` without contacting a backend.  The returned event
list records which backend (if any) was contacted. -/
def prompt_llm (prompt : String) (model : String) (env : Env) :
    List Event × Except Err PyVal :=
  if model = "gpt-4" then ([Event.hostedCall], hostedFetch env)
  else if model = "local-gpt-oss" then ([Event.localCall], localFetch env)
  else ([], Except.ok PyVal.null)

/-- Translation of `get_json_structure`: missing structures file raises
`FileNotFoundError`; invalid JSON raises `ValueError`; `.get` on a
non-dict raises (wrapped) `AttributeError`; an absent template name (or
a stored JSON `null`, which `dict.get` also returns as `None`) yields
`none`; otherwise the structure is re-serialized with `json.dumps`. -/
def get_json_structure (structuresFile : Option String) (template : String) :
    Except Err (Option String) :=
  match structuresFile with
  | none => Except.error (Err.fileNotFound "Structures file resume_structures.json not found")
  | some content =>
    match jsonLoads content with
    | none => Except.error (Err.valueError "Invalid JSON in resume_structures.json")
    | some parsed =>
      match parsed with
      | PyVal.obj structures =>
        match lookupStr structures template with
        | none => Except.ok none
        | some PyVal.null => Except.ok none
        | some structVal => (dumps structVal).map some
      | _ => Except.error (Err.attributeError "structures object has no attribute get")

/-- Jinja2 rendering is an external black box (spec section 4.5 puts the
template engine semantics out of scope); it is modelled as a function of
the template text whose exact output is irrelevant to every claim. -/
def renderTemplate (templateStr : String) (_resume : List (String × PyVal)) : String :=
  templateStr

/-- Translation of `generate_html_resume`: a missing template file is a
fatal `FileNotFoundError` raised BEFORE any rendering; otherwise the file
is read and rendered with the resume fields as keyword arguments, which
requires the resume to be a mapping (`**` unpacking).  The event records
whether rendering was actually attempted. -/
def generate_html_resume (templateFile : Option String) (resume_data : PyVal)
    (template : String) : List Event × Except Err String :=
  match templateFile with
  | none =>
    ([], Except.error (Err.fileNotFound ("Template file not found: templates/" ++ template)))
  | some templateStr =>
    match resume_data with
    | PyVal.obj m => ([Event.templateRender], Except.ok (renderTemplate templateStr m))
    | _ => ([], Except.error (Err.typeError "argument after ** must be a mapping"))

/-- Translation of `generate_pdf`: attempt the conversion; on success the
PDF is written at the output path (file content modelled by the HTML
source given to the converter); on any failure write the rendered HTML
to the output path with every `.pdf` substring replaced by `.html`, and return `False` instead of
raising. -/
def generate_pdf (pdfConvert : Except Err Unit) (html_content : String)
    (output_path : String) : List Event × List (String × String) × Bool :=
  match pdfConvert with
  | Except.ok _ => ([Event.pdfAttempt], [(output_path, html_content)], true)
  | Except.error _ =>
    ([Event.pdfAttempt], [(strReplace output_path ".pdf" ".html", html_content)], false)

/-- The inner `try` of `main`: call the LLM (with the default model, i.e.
the local backend), clean the response; on ANY exception fall back to
`format_profile_as_resume` — whose own exception (non-dict profile)
escapes to the outer handler. -/
def tailorStep (env : Env) (user_profile : PyVal) (prompt : String) :
    List Event × Except Err PyVal :=
  match prompt_llm prompt "local-gpt-oss" env with
  | (ev, Except.ok ai_response) =>
    (ev, match clean_response ai_response with
         | Except.ok v => Except.ok v
         | Except.error _ => format_profile_as_resume user_profile)
  | (ev, Except.error _) => (ev, format_profile_as_resume user_profile)

/-- Observable result of one `main` run: ordered events, the Tailored
Resume handed to the renderer (`none` when the renderer is never
reached), files written, and the outcome. -/
structure RunResult where
  events : List Event
  resume : Option PyVal
  writes : List (String × String)
  outcome : Outcome

/-- Translation of the body of `main` (inside the outer `try`): load
inputs, look up the JSON structure (empty-string falsy check as in
`if not json_structure`), build the prompt, tailor with fallback, render
HTML, convert to PDF.  Any exception outside the inner `try` is caught by
the outer handler, which prints the error and ends the run. -/
def mainRun (env : Env) (output : String) (template : String) : RunResult :=
  match env.profileLoad with
  | Except.error e => ⟨[], none, [], Outcome.errorMsg e⟩
  | Except.ok user_profile =>
    match env.jobLoad with
    | Except.error e => ⟨[], none, [], Outcome.errorMsg e⟩
    | Except.ok job_description =>
      match get_json_structure env.structuresFile template with
      | Except.error e => ⟨[], none, [], Outcome.errorMsg e⟩
      | Except.ok none => ⟨[], none, [], Outcome.noStructure⟩
      | Except.ok (some json_structure) =>
        if json_structure = "" then ⟨[], none, [], Outcome.noStructure⟩
        else
          match generate_prompt user_profile job_description json_structure with
          | Except.error e => ⟨[], none, [], Outcome.errorMsg e⟩
          | Except.ok prompt =>
            match tailorStep env user_profile prompt with
            | (ev1, Except.error e) => ⟨ev1, none, [], Outcome.errorMsg e⟩
            | (ev1, Except.ok tailored_resume) =>
              match generate_html_resume env.templateFile tailored_resume template with
              | (ev2, Except.error e) =>
                ⟨ev1 ++ [Event.renderCall] ++ ev2, some tailored_resume, [],
                 Outcome.errorMsg e⟩
              | (ev2, Except.ok html_content) =>
                match generate_pdf env.pdfConvert html_content output with
                | (ev3, writes, success) =>
                  ⟨ev1 ++ [Event.renderCall] ++ ev2 ++ ev3, some tailored_resume, writes,
                   if success then Outcome.pdfOk else Outcome.pdfFail⟩

/-- Result of a whole process invocation: the module-level credential
check runs at import time, before `main`. -/
inductive ProgResult where
  | startupAbort
  | ran (r : RunResult)

/-- Whole program: module initialization checks the credential
environment variable (`if not openai.api_key` — absent or empty is
falsy and raises `ValueError`) before any pipeline stage; then `main`
runs. -/
def runProgram (env : Env) (output : String) (template : String) : ProgResult :=
  match env.apiKey with
  | none => ProgResult.startupAbort
  | some k => if k = "" then ProgResult.startupAbort else ProgResult.ran (mainRun env output template)

/-- Modelled from the spec: the Output Schema shape.  The schema table
file `resume_structures.json` is not part of `src/`; spec section 3
describes the schema as an object with fields `name`, `contact` (object),
`professional_summary`, `skills` (list), `experience` (list), `education`
(list), `projects` (list). -/
def matchesOutputSchema (v : PyVal) : Bool :=
  match v with
  | PyVal.obj m =>
    (match lookupStr m "name" with | some (PyVal.str _) => true | _ => false) &&
    (match lookupStr m "contact" with | some (PyVal.obj _) => true | _ => false) &&
    (match lookupStr m "professional_summary" with | some (PyVal.str _) => true | _ => false) &&
    (match lookupStr m "skills" with | some (PyVal.arr _) => true | _ => false) &&
    (match lookupStr m "experience" with | some (PyVal.arr _) => true | _ => false) &&
    (match lookupStr m "education" with | some (PyVal.arr _) => true | _ => false) &&
    (match lookupStr m "projects" with | some (PyVal.arr _) => true | _ => false)
  | _ => false

/-- Response text that already ends in a closing fence marker (the
character rendering is an opening brace, a closing brace, and three
backticks). -/
def cexT1 : List Char := [obr, cbr] ++ fenceClose

/-- Response text that already starts with the opening fence marker. -/
def cexT2 : List Char := fenceOpen ++ [obr, cbr]

/-- Plain two-character object text used as a concrete fence-invariance
input. -/
def witT : List Char := [obr, cbr]

/-- Concrete model response: a JSON serialization matching the Output
Schema shape. -/
def c4resp : String :=
  "\x7b\"name\": \"A\", \"contact\": \x7b\x7d, \"professional_summary\": \"s\", " ++
  "\"skills\": [], \"experience\": [], \"education\": [], \"projects\": []\x7d"

/-- Parsed value of `c4resp`. -/
def c4val : PyVal :=
  PyVal.obj
    [("name", PyVal.str "A"),
     ("contact", PyVal.obj []),
     ("professional_summary", PyVal.str "s"),
     ("skills", PyVal.arr []),
     ("experience", PyVal.arr []),
     ("education", PyVal.arr []),
     ("projects", PyVal.arr [])]

/-- Happy-path oracle environment used to instantiate theorems on
concrete inputs (witnesses override single fields). -/
def envOkBase : Env where
  apiKey := some "sk-test"
  profileLoad := Except.ok (PyVal.obj
    [("name", PyVal.str "A. Lee"),
     ("skills", PyVal.arr [PyVal.str "Python", PyVal.str "SQL"])])
  jobLoad := Except.ok "Seeking a backend engineer with Python and SQL experience"
  structuresFile := some "\x7b\"t\": 1\x7d"
  templateFile := some "<html>TEMPLATE</html>"
  hostedResp := Except.ok ""
  localResp := Except.ok (PyVal.obj [("response", PyVal.str "\x7b\"name\": \"A. Lee\"\x7d")])
  pdfConvert := Except.ok ()

/-- Environment whose YAML-loaded profile contains a `datetime.date`
value, making `json.dumps` (hence `generate_prompt`) raise. -/
def envDateProfile : Env :=
  { envOkBase with
    profileLoad := Except.ok (PyVal.obj
      [("name", PyVal.str "A. Lee"), ("dob", PyVal.date 2000 1 1)]) }

theorem prompt_llm_local (prompt : String) (env : Env) :
    prompt_llm prompt "local-gpt-oss" env = ([Event.localCall], localFetch env) := rfl

theorem tailorStep_events (env : Env) (p : PyVal) (pr : String) :
    (tailorStep env p pr).1 = [Event.localCall] := by
  cases h : localFetch env with
  | error e => simp [tailorStep, prompt_llm_local, h]
  | ok v => simp [tailorStep, prompt_llm_local, h]

theorem tailorStep_fallback (env : Env) (p : PyVal) (pr : String) (e : Err)
    (herr : (localFetch env).bind clean_response = Except.error e) :
    tailorStep env p pr = ([Event.localCall], format_profile_as_resume p) := by
  cases h : localFetch env with
  | error e2 => simp [tailorStep, prompt_llm_local, h]
  | ok v =>
    rw [h] at herr
    have hc : clean_response v = Except.error e := by simpa [Except.bind] using herr
    simp [tailorStep, prompt_llm_local, h, hc]

theorem generate_pdf_events (pc : Except Err Unit) (h o : String) :
    (generate_pdf pc h o).1 = [Event.pdfAttempt] := by
  cases pc <;> rfl

theorem hostedCall_not_in_html_events (tf : Option String) (rd : PyVal) (tm : String) :
    Event.hostedCall ∉ (generate_html_resume tf rd tm).1 := by
  cases tf with
  | none => simp [generate_html_resume]
  | some t => cases rd <;> simp [generate_html_resume]

theorem mainRun_after_tailor_ok (env : Env) (out tmpl : String) (p : PyVal)
    (j s pr : String) (ev1 : List Event) (tr : PyVal)
    (hp : env.profileLoad = Except.ok p) (hj : env.jobLoad = Except.ok j)
    (hs : get_json_structure env.structuresFile tmpl = Except.ok (some s)) (hne : s ≠ "")
    (hpr : generate_prompt p j s = Except.ok pr)
    (htail : tailorStep env p pr = (ev1, Except.ok tr)) :
    (mainRun env out tmpl).resume = some tr ∧
    Event.renderCall ∈ (mainRun env out tmpl).events := by
  have hmain : mainRun env out tmpl =
      (match generate_html_resume env.templateFile tr tmpl with
       | (ev2, Except.error e) =>
         ⟨ev1 ++ [Event.renderCall] ++ ev2, some tr, [], Outcome.errorMsg e⟩
       | (ev2, Except.ok html_content) =>
         match generate_pdf env.pdfConvert html_content out with
         | (ev3, writes, success) =>
           ⟨ev1 ++ [Event.renderCall] ++ ev2 ++ ev3, some tr, writes,
            if success then Outcome.pdfOk else Outcome.pdfFail⟩) := by
    simp only [mainRun, hp, hj, hs, if_neg hne, hpr, htail]
  rcases hh : generate_html_resume env.templateFile tr tmpl with ⟨ev2, res2⟩
  cases res2 with
  | error e => rw [hmain, hh]; simp
  | ok html =>
    rcases hpdf : generate_pdf env.pdfConvert html out with ⟨ev3, w, succ⟩
    rw [hmain, hh]; simp [hpdf]

/-- C8: if the required credential environment variable for the hosted
completion backend is absent at startup, the module-level check raises a
fatal `ValueError` before `main` (and with it any pipeline stage) runs:
the program result is a bare startup abort carrying no run. -/
theorem missing_credential_aborts_startup (env : Env) (out tmpl : String)
    (h : env.apiKey = none) :
    runProgram env out tmpl = ProgResult.startupAbort := by
  simp [runProgram, h]

theorem missing_credential_aborts_startup_witness :
    runProgram { envOkBase with apiKey := none } "out.pdf" "t" = ProgResult.startupAbort :=
  missing_credential_aborts_startup _ "out.pdf" "t" rfl

/-- C9: for any backend identifier other than the two known ones,
`prompt_llm` falls through its `if`/`elif` chain and returns Python
`None` — no exception, no backend contacted (no network event). -/
theorem unknown_backend_returns_none (prompt model : String) (env : Env)
    (h1 : model ≠ "gpt-4") (h2 : model ≠ "local-gpt-oss") :
    prompt_llm prompt model env = ([], Except.ok PyVal.null) := by
  simp [prompt_llm, h1, h2]

theorem unknown_backend_returns_none_witness :
    prompt_llm "p" "claude" envOkBase = ([], Except.ok PyVal.null) :=
  unknown_backend_returns_none "p" "claude" envOkBase (by decide) (by decide)

/-- C7 counterexample: on conversion failure the fallback path is NOT the
output path with its `.pdf` suffix replaced — `str.replace` rewrites
every occurrence, so `a.pdf.pdf` becomes `a.html.html`, not `a.pdf.html`
as the claim states. -/
theorem pdf_suffix_replacement_cex :
    generate_pdf (Except.error (Err.backendError "no wkhtmltopdf")) "HTML" "a.pdf.pdf" =
      ([Event.pdfAttempt], [("a.html.html", "HTML")], false) ∧
    ("a.html.html" : String) ≠ "a.pdf.html" :=
  ⟨rfl, by decide⟩

/-- C7 amended: when PDF conversion fails, the renderer writes the
already-rendered HTML content to the path obtained from the output path
by replacing EVERY occurrence of the substring `.pdf` with `.html`
(which coincides with suffix replacement when `.pdf` occurs exactly
once, as the suffix), and returns the failure indicator `false` without
raising. -/
theorem pdf_failure_writes_html_and_degrades (e : Err) (html out : String)
    (conv : Except Err Unit) (h : conv = Except.error e) :
    generate_pdf conv html out =
      ([Event.pdfAttempt], [(strReplace out ".pdf" ".html", html)], false) := by
  subst h; rfl

theorem pdf_failure_writes_html_and_degrades_witness :
    generate_pdf (Except.error (Err.backendError "boom")) "H" "resume.pdf" =
      ([Event.pdfAttempt], [("resume.html", "H")], false) :=
  pdf_failure_writes_html_and_degrades (Err.backendError "boom") "H" "resume.pdf" _ rfl

/-- C5: when the requested template name is absent from the (successfully
loaded) schema lookup table, `get_json_structure` returns the empty
result and `main` stops at the falsy check — the run ends with no events
at all, in particular before any network call to a completion backend. -/
theorem missing_schema_aborts_before_network (env : Env) (out tmpl content : String)
    (tbl : List (String × PyVal)) (p : PyVal) (j : String)
    (hp : env.profileLoad = Except.ok p) (hj : env.jobLoad = Except.ok j)
    (hc : env.structuresFile = some content)
    (htbl : jsonLoads content = some (PyVal.obj tbl))
    (hlook : lookupStr tbl tmpl = none) :
    get_json_structure env.structuresFile tmpl = Except.ok none ∧
    mainRun env out tmpl = ⟨[], none, [], Outcome.noStructure⟩ := by
  have hg : get_json_structure env.structuresFile tmpl = Except.ok none := by
    rw [hc]; simp [get_json_structure, htbl, hlook]
  exact ⟨hg, by simp [mainRun, hp, hj, hg]⟩

theorem missing_schema_aborts_before_network_witness :
    get_json_structure ({ envOkBase with structuresFile := some "\x7b\"other\": 1\x7d" } : Env).structuresFile "t" =
      Except.ok none ∧
    mainRun { envOkBase with structuresFile := some "\x7b\"other\": 1\x7d" } "out.pdf" "t" =
      ⟨[], none, [], Outcome.noStructure⟩ :=
  missing_schema_aborts_before_network _ "out.pdf" "t" "\x7b\"other\": 1\x7d"
    [("other", PyVal.int 1)] _ _ rfl rfl rfl rfl rfl

/-- C1: if the completion backend call raises, the Tailored Resume handed
to the renderer is exactly `format_profile_as_resume(profile)`: the
seven-key mapping whose entries are the profile entries when present and
the empty defaults otherwise; and for every profile mapping this
reshaping succeeds (never raises for absent fields). -/
theorem backend_error_falls_back_to_profile (env : Env) (out tmpl : String)
    (m : List (String × PyVal)) (j s : String) (e : Err)
    (hp : env.profileLoad = Except.ok (PyVal.obj m))
    (hj : env.jobLoad = Except.ok j)
    (hs : get_json_structure env.structuresFile tmpl = Except.ok (some s))
    (hne : s ≠ "")
    (hpr : ∃ pr, generate_prompt (PyVal.obj m) j s = Except.ok pr)
    (hllm : env.localResp = Except.error e) :
    format_profile_as_resume (PyVal.obj m) =
      Except.ok (PyVal.obj
        [("name", getD m "name" (PyVal.str "")),
         ("contact", getD m "contact" (PyVal.obj [])),
         ("professional_summary", getD m "professional_summary" (PyVal.str "")),
         ("skills", getD m "skills" (PyVal.arr [])),
         ("experience", getD m "experience" (PyVal.arr [])),
         ("education", getD m "education" (PyVal.arr [])),
         ("projects", getD m "projects" (PyVal.arr []))]) ∧
    (mainRun env out tmpl).resume =
      some (PyVal.obj
        [("name", getD m "name" (PyVal.str "")),
         ("contact", getD m "contact" (PyVal.obj [])),
         ("professional_summary", getD m "professional_summary" (PyVal.str "")),
         ("skills", getD m "skills" (PyVal.arr [])),
         ("experience", getD m "experience" (PyVal.arr [])),
         ("education", getD m "education" (PyVal.arr [])),
         ("projects", getD m "projects" (PyVal.arr []))]) := by
  obtain ⟨pr, hpr⟩ := hpr
  have hloc : (localFetch env).bind clean_response = Except.error e := by
    simp [localFetch, hllm, Except.bind]
  have htail : tailorStep env (PyVal.obj m) pr =
      ([Event.localCall], format_profile_as_resume (PyVal.obj m)) :=
    tailorStep_fallback env (PyVal.obj m) pr e hloc
  refine ⟨rfl, ?_⟩
  have htail2 : tailorStep env (PyVal.obj m) pr =
      ([Event.localCall], Except.ok (PyVal.obj
        [("name", getD m "name" (PyVal.str "")),
         ("contact", getD m "contact" (PyVal.obj [])),
         ("professional_summary", getD m "professional_summary" (PyVal.str "")),
         ("skills", getD m "skills" (PyVal.arr [])),
         ("experience", getD m "experience" (PyVal.arr [])),
         ("education", getD m "education" (PyVal.arr [])),
         ("projects", getD m "projects" (PyVal.arr []))])) := htail
  exact (mainRun_after_tailor_ok env out tmpl (PyVal.obj m) j s pr _ _ hp hj hs hne hpr htail2).1

theorem backend_error_falls_back_to_profile_witness :
    format_profile_as_resume (PyVal.obj
      [("name", PyVal.str "A. Lee"),
       ("skills", PyVal.arr [PyVal.str "Python", PyVal.str "SQL"])]) =
      Except.ok (PyVal.obj
        [("name", PyVal.str "A. Lee"),
         ("contact", PyVal.obj []),
         ("professional_summary", PyVal.str ""),
         ("skills", PyVal.arr [PyVal.str "Python", PyVal.str "SQL"]),
         ("experience", PyVal.arr []),
         ("education", PyVal.arr []),
         ("projects", PyVal.arr [])]) ∧
    (mainRun { envOkBase with localResp := Except.error (Err.backendError "conn refused") }
        "out.pdf" "t").resume =
      some (PyVal.obj
        [("name", PyVal.str "A. Lee"),
         ("contact", PyVal.obj []),
         ("professional_summary", PyVal.str ""),
         ("skills", PyVal.arr [PyVal.str "Python", PyVal.str "SQL"]),
         ("experience", PyVal.arr []),
         ("education", PyVal.arr []),
         ("projects", PyVal.arr [])]) :=
  backend_error_falls_back_to_profile _ "out.pdf" "t"
    [("name", PyVal.str "A. Lee"),
     ("skills", PyVal.arr [PyVal.str "Python", PyVal.str "SQL"])]
    _ "1" (Err.backendError "conn refused") rfl rfl rfl (by decide) ⟨_, rfl⟩ rfl

/-- C2 counterexample: an exception raised in prompt-building is NOT
absorbed by the fallback.  A YAML-loaded profile containing a date makes
`json.dumps` raise inside `generate_prompt`, which sits before the inner
`try`; the run aborts via the outer handler with no resume substituted
and no rendering. -/
theorem prompt_build_error_aborts_cex :
    mainRun envDateProfile "out.pdf" "t" =
      ⟨[], none, [],
       Outcome.errorMsg (Err.typeError "Object of type date is not JSON serializable")⟩ := rfl

/-- C2 amended: an exception raised in completion-fetching or response
normalization is absorbed: the pipeline substitutes the reshaped original
profile as the Tailored Resume and still proceeds to render (the renderer
is invoked with the fallback value).  Exceptions in prompt-building,
which the inner `try` does not cover, abort the run instead. -/
theorem completion_or_parse_error_absorbed (env : Env) (out tmpl : String)
    (m : List (String × PyVal)) (j s : String) (e : Err)
    (hp : env.profileLoad = Except.ok (PyVal.obj m))
    (hj : env.jobLoad = Except.ok j)
    (hs : get_json_structure env.structuresFile tmpl = Except.ok (some s))
    (hne : s ≠ "")
    (hpr : ∃ pr, generate_prompt (PyVal.obj m) j s = Except.ok pr)
    (herr : (localFetch env).bind clean_response = Except.error e) :
    (∃ fb, format_profile_as_resume (PyVal.obj m) = Except.ok fb ∧
      (mainRun env out tmpl).resume = some fb) ∧
    Event.renderCall ∈ (mainRun env out tmpl).events := by
  obtain ⟨pr, hpr⟩ := hpr
  have htail : tailorStep env (PyVal.obj m) pr =
      ([Event.localCall], format_profile_as_resume (PyVal.obj m)) :=
    tailorStep_fallback env (PyVal.obj m) pr e herr
  have hfb : format_profile_as_resume (PyVal.obj m) =
      Except.ok (PyVal.obj
        [("name", getD m "name" (PyVal.str "")),
         ("contact", getD m "contact" (PyVal.obj [])),
         ("professional_summary", getD m "professional_summary" (PyVal.str "")),
         ("skills", getD m "skills" (PyVal.arr [])),
         ("experience", getD m "experience" (PyVal.arr [])),
         ("education", getD m "education" (PyVal.arr [])),
         ("projects", getD m "projects" (PyVal.arr []))]) := rfl
  have hmn := mainRun_after_tailor_ok env out tmpl (PyVal.obj m) j s pr _ _
    hp hj hs hne hpr (by rw [htail, hfb])
  exact ⟨⟨_, hfb, hmn.1⟩, hmn.2⟩

theorem completion_or_parse_error_absorbed_witness :
    (∃ fb, format_profile_as_resume (PyVal.obj
        [("name", PyVal.str "A. Lee"),
         ("skills", PyVal.arr [PyVal.str "Python", PyVal.str "SQL"])]) = Except.ok fb ∧
      (mainRun { envOkBase with localResp := Except.ok (PyVal.obj [("response", PyVal.str "not json")]) }
          "out.pdf" "t").resume = some fb) ∧
    Event.renderCall ∈
      (mainRun { envOkBase with localResp := Except.ok (PyVal.obj [("response", PyVal.str "not json")]) }
          "out.pdf" "t").events :=
  completion_or_parse_error_absorbed _ "out.pdf" "t"
    [("name", PyVal.str "A. Lee"),
     ("skills", PyVal.arr [PyVal.str "Python", PyVal.str "SQL"])]
    _ "1" (Err.valueError "Expecting value: line 1 column 1")
    rfl rfl rfl (by decide) ⟨_, rfl⟩ rfl

/-- C6: when the named template file does not exist, `generate_html_resume`
raises a fatal `FileNotFoundError` before any rendering; the failure is
caught by the outer handler (not the fallback), no PDF conversion is
attempted, and no output file is written. -/
theorem missing_template_aborts_run (env : Env) (out tmpl : String) (p : PyVal)
    (j s : String)
    (hp : env.profileLoad = Except.ok p) (hj : env.jobLoad = Except.ok j)
    (hs : get_json_structure env.structuresFile tmpl = Except.ok (some s)) (hne : s ≠ "")
    (htail : ∃ pr ev1 tr, generate_prompt p j s = Except.ok pr ∧
      tailorStep env p pr = (ev1, Except.ok tr))
    (htmpl : env.templateFile = none) :
    (mainRun env out tmpl).outcome =
      Outcome.errorMsg (Err.fileNotFound ("Template file not found: templates/" ++ tmpl)) ∧
    (mainRun env out tmpl).writes = [] ∧
    Event.templateRender ∉ (mainRun env out tmpl).events ∧
    Event.pdfAttempt ∉ (mainRun env out tmpl).events := by
  obtain ⟨pr, ev1, tr, hpr2, htail⟩ := htail
  have hev1 : ev1 = [Event.localCall] := by
    have h2 := tailorStep_events env p pr
    rw [htail] at h2
    exact h2
  have hmain : mainRun env out tmpl =
      ⟨ev1 ++ [Event.renderCall] ++ [], some tr, [],
       Outcome.errorMsg (Err.fileNotFound ("Template file not found: templates/" ++ tmpl))⟩ := by
    simp only [mainRun, hp, hj, hs, if_neg hne, hpr2, htail, generate_html_resume, htmpl]
  rw [hmain, hev1]
  refine ⟨rfl, rfl, ?_, ?_⟩ <;> simp

theorem missing_template_aborts_run_witness :
    (mainRun { envOkBase with templateFile := none } "out.pdf" "t").outcome =
      Outcome.errorMsg (Err.fileNotFound ("Template file not found: templates/" ++ "t")) ∧
    (mainRun { envOkBase with templateFile := none } "out.pdf" "t").writes = [] ∧
    Event.templateRender ∉ (mainRun { envOkBase with templateFile := none } "out.pdf" "t").events ∧
    Event.pdfAttempt ∉ (mainRun { envOkBase with templateFile := none } "out.pdf" "t").events :=
  missing_template_aborts_run _ "out.pdf" "t" _ _ "1" rfl rfl rfl (by decide)
    ⟨_, [Event.localCall], _, rfl, rfl⟩ rfl

/-- C10: `main` calls `prompt_llm` without a model argument, whose default
is the local backend, so no CLI run ever produces a hosted-backend call;
and the module-level missing-credential check still aborts startup
unconditionally when the credential is absent. -/
theorem cli_uses_local_backend_only (env : Env) (out tmpl : String) :
    Event.hostedCall ∉ (mainRun env out tmpl).events ∧
    (env.apiKey = none → runProgram env out tmpl = ProgResult.startupAbort) := by
  refine ⟨?_, fun h => by simp [runProgram, h]⟩
  cases hp : env.profileLoad with
  | error e => simp [mainRun, hp]
  | ok p =>
  cases hj : env.jobLoad with
  | error e => simp [mainRun, hp, hj]
  | ok j =>
  cases hg : get_json_structure env.structuresFile tmpl with
  | error e => simp [mainRun, hp, hj, hg]
  | ok os =>
  cases os with
  | none => simp [mainRun, hp, hj, hg]
  | some s =>
  by_cases hse : s = ""
  · simp [mainRun, hp, hj, hg, hse]
  · cases hpr : generate_prompt p j s with
    | error e => simp [mainRun, hp, hj, hg, if_neg hse, hpr]
    | ok pr =>
    rcases ht : tailorStep env p pr with ⟨ev1, res1⟩
    have hev1 : ev1 = [Event.localCall] := by
      have h2 := tailorStep_events env p pr
      rw [ht] at h2
      exact h2
    cases res1 with
    | error e =>
      have hmn : mainRun env out tmpl = ⟨ev1, none, [], Outcome.errorMsg e⟩ := by
        simp only [mainRun, hp, hj, hg, if_neg hse, hpr, ht]
      rw [hmn, hev1]; simp
    | ok tr =>
    rcases hh : generate_html_resume env.templateFile tr tmpl with ⟨ev2, res2⟩
    have hev2 : Event.hostedCall ∉ ev2 := by
      have h2 := hostedCall_not_in_html_events env.templateFile tr tmpl
      rw [hh] at h2
      exact h2
    cases res2 with
    | error e =>
      have hmn : mainRun env out tmpl =
          ⟨ev1 ++ [Event.renderCall] ++ ev2, some tr, [], Outcome.errorMsg e⟩ := by
        simp only [mainRun, hp, hj, hg, if_neg hse, hpr, ht, hh]
      rw [hmn, hev1]
      simpa using hev2
    | ok html =>
    rcases hpdf : generate_pdf env.pdfConvert html out with ⟨ev3, w, succ⟩
    have hev3 : ev3 = [Event.pdfAttempt] := by
      have h2 := generate_pdf_events env.pdfConvert html out
      rw [hpdf] at h2
      exact h2
    have hmn : mainRun env out tmpl =
        ⟨ev1 ++ [Event.renderCall] ++ ev2 ++ ev3, some tr, w,
         if succ then Outcome.pdfOk else Outcome.pdfFail⟩ := by
      simp only [mainRun, hp, hj, hg, if_neg hse, hpr, ht, hh, hpdf]
    rw [hmn, hev1, hev3]
    simpa using hev2

theorem cli_uses_local_backend_only_witness :
    Event.hostedCall ∉ (mainRun { envOkBase with apiKey := none } "out.pdf" "t").events ∧
    (({ envOkBase with apiKey := none } : Env).apiKey = none →
      runProgram { envOkBase with apiKey := none } "out.pdf" "t" = ProgResult.startupAbort) :=
  cli_uses_local_backend_only { envOkBase with apiKey := none } "out.pdf" "t"

theorem dropWhile_fix_of_pre (p : Char → Bool) (S A : List Char)
    (hpre : S <+: A) (hA : List.dropWhile p A = A) : List.dropWhile p S = S := by
  cases S with
  | nil => simp
  | cons a S2 =>
    obtain ⟨tl, htl⟩ := hpre
    have ha : p a = false := by
      rw [← htl] at hA
      by_contra hcon
      have ha2 : p a = true := by simpa using hcon
      rw [List.cons_append, List.dropWhile_cons, if_pos ha2] at hA
      have hlen := congrArg List.length hA
      have hle := ((List.dropWhile_sublist p (l := S2 ++ tl))).length_le
      simp [List.length_append] at hlen hle
      omega
    rw [List.dropWhile_cons, if_neg (by simp [ha])]

theorem stripChars_idem (l : List Char) : stripChars (stripChars l) = stripChars l := by
  unfold stripChars
  have h1 : List.dropWhile isWs (List.rdropWhile isWs (List.dropWhile isWs l)) =
      List.rdropWhile isWs (List.dropWhile isWs l) :=
    dropWhile_fix_of_pre isWs _ _ ( List.rdropWhile_prefix _ _) (List.dropWhile_idempotent _ _)
  rw [h1, List.rdropWhile_idempotent]

theorem stripChars_eq_of_ends (a b : Char) (mid : List Char)
    (ha : isWs a = false) (hb : isWs b = false) :
    stripChars (a :: mid ++ [b]) = a :: mid ++ [b] := by
  unfold stripChars
  have h1 : List.dropWhile isWs (a :: mid ++ [b]) = a :: mid ++ [b] := by
    rw [List.cons_append, List.dropWhile_cons, if_neg (by simp [ha])]
  rw [h1]
  have h2 : a :: mid ++ [b] = (a :: mid) ++ [b] := by simp
  rw [h2, List.rdropWhile_concat_neg isWs (a :: mid) b (by simp [hb])]

theorem fence_decomp (t : List Char) :
    fenceOpen ++ t ++ fenceClose =
      btick :: ([btick, btick, 'j', 's', 'o', 'n'] ++ t ++ [btick, btick]) ++ [btick] := by
  have hfo : fenceOpen = [btick, btick, btick, 'j', 's', 'o', 'n'] := rfl
  have hfc : fenceClose = [btick, btick, btick] := rfl
  rw [hfo, hfc]
  simp

theorem jsonLoadsChars_strip (t : List Char) :
    jsonLoadsChars (stripChars t) = jsonLoadsChars t := by
  unfold jsonLoadsChars
  rw [stripChars_idem]

/-- C3 counterexample: `clean_response` is NOT invariant under adding the
fence wrapper for every response text.  Only one trailing marker is
stripped, so a text that itself ends in a closing marker (and likewise
one that starts with an opening marker) parses differently when
wrapped: the unwrapped text parses to the empty object while the
wrapped text fails to parse. -/
theorem fence_wrap_invariance_cex :
    cleanStr (fenceOpen ++ cexT1 ++ fenceClose) ≠ cleanStr cexT1 ∧
    cleanStr (fenceOpen ++ cexT2 ++ fenceClose) ≠ cleanStr cexT2 := by
  constructor
  · intro h
    have h1 : cleanStr (fenceOpen ++ cexT1 ++ fenceClose) =
        Except.error (Err.valueError "Expecting value: line 1 column 1") := rfl
    have h2 : cleanStr cexT1 = Except.ok (PyVal.obj []) := rfl
    rw [h1, h2] at h
    exact Except.noConfusion h
  · intro h
    have h1 : cleanStr (fenceOpen ++ cexT2 ++ fenceClose) =
        Except.error (Err.valueError "Expecting value: line 1 column 1") := rfl
    have h2 : cleanStr cexT2 = Except.ok (PyVal.obj []) := rfl
    rw [h1, h2] at h
    exact Except.noConfusion h

/-- C3 amended: for every response text whose stripped form does not
itself start with the opening fence marker and does not itself end with
the closing fence marker, normalizing the text wrapped in a leading
opening marker and a trailing closing marker yields exactly the same
result as normalizing the text without the markers. -/
theorem fence_wrap_invariance (t : List Char)
    (h1 : fenceOpen.isPrefixOf (stripChars t) = false)
    (h2 : fenceClose.isSuffixOf (stripChars t) = false) :
    cleanStr (fenceOpen ++ t ++ fenceClose) = cleanStr t := by
  have hstrip : stripChars (fenceOpen ++ t ++ fenceClose) = fenceOpen ++ t ++ fenceClose := by
    rw [fence_decomp]
    exact stripChars_eq_of_ends btick btick _ (by decide) (by decide)
  have hpre : fenceOpen.isPrefixOf (fenceOpen ++ t ++ fenceClose) = true := by
    rw [List.append_assoc]
    exact List.isPrefixOf_iff_prefix.mpr (List.prefix_append _ _)
  have hdrop : (fenceOpen ++ t ++ fenceClose).drop 7 = t ++ fenceClose := by
    rw [List.append_assoc]
    have h7 : (7 : Nat) = fenceOpen.length := rfl
    rw [h7, List.drop_left]
  have hsuf : fenceClose.isSuffixOf (t ++ fenceClose) = true :=
    List.isSuffixOf_iff_suffix.mpr (List.suffix_append _ _)
  have htake : (t ++ fenceClose).take ((t ++ fenceClose).length - 3) = t := by
    have hlen : (t ++ fenceClose).length - 3 = t.length := by
      have h3 : fenceClose.length = 3 := rfl
      simp [List.length_append, h3]
    rw [hlen, List.take_left]
  simp only [cleanStr, hstrip, hpre, hdrop, hsuf, htake, h1, h2,
    if_true, if_false, Bool.false_eq_true, jsonLoadsChars_strip]

theorem fence_wrap_invariance_witness :
    cleanStr (fenceOpen ++ witT ++ fenceClose) = cleanStr witT :=
  fence_wrap_invariance witT rfl rfl

theorem suffix_dropWs (cs : List Char) : dropWs cs <:+ cs := List.dropWhile_suffix isWs

theorem cons_suffix_of_dropWs {cs : List Char} {c : Char} {r : List Char}
    (h : dropWs cs = c :: r) : r <:+ cs :=
  (List.suffix_cons c r).trans (h ▸ suffix_dropWs cs)

theorem expectChar_suffix {c : Char} {cs r : List Char} (h : expectChar c cs = some r) :
    r <:+ cs := by
  unfold expectChar at h
  cases hd : dropWs cs with
  | nil => simp [hd] at h
  | cons c2 r2 =>
    simp only [hd] at h
    by_cases he : c2 = c
    · rw [if_pos he] at h
      obtain rfl := Option.some.inj h
      exact cons_suffix_of_dropWs hd
    · rw [if_neg he] at h
      exact absurd h (by simp)

theorem expectChar_some_decomp {c : Char} {cs r : List Char} (h : expectChar c cs = some r) :
    ∃ w, cs = w ++ c :: r := by
  unfold expectChar at h
  cases hd : dropWs cs with
  | nil => simp [hd] at h
  | cons c2 r2 =>
    simp only [hd] at h
    by_cases he : c2 = c
    · rw [if_pos he] at h
      obtain rfl := Option.some.inj h
      subst he
      have hcs : cs = cs.takeWhile isWs ++ (c2 :: r2) := by
        rw [← hd]
        exact (List.takeWhile_append_dropWhile isWs cs).symm
      exact ⟨cs.takeWhile isWs, hcs⟩
    · rw [if_neg he] at h
      exact absurd h (by simp)

theorem expectLit_suffix {lit cs r : List Char} (h : expectLit lit cs = some r) : r <:+ cs := by
  unfold expectLit at h
  by_cases hp : lit.isPrefixOf cs
  · rw [if_pos hp] at h
    obtain rfl := Option.some.inj h
    exact List.drop_suffix _ _
  · rw [if_neg hp] at h
    exact absurd h (by simp)

theorem parseDigits_suffix {cs : List Char} {p : Nat × List Char}
    (h : parseDigits cs = some p) : p.2 <:+ cs := by
  unfold parseDigits at h
  cases htw : cs.takeWhile (fun c => c.isDigit) with
  | nil => simp [htw] at h
  | cons d ds =>
    simp only [htw] at h
    obtain rfl := Option.some.inj h
    exact List.dropWhile_suffix _

theorem parseStrBody_suffix : ∀ (f : Nat) (cs : List Char) (p : List Char × List Char),
    parseStrBody f cs = some p → p.2 <:+ cs := by
  intro f
  induction f with
  | zero => intro cs p h; simp [parseStrBody] at h
  | succ f ih =>
    intro cs p h
    cases cs with
    | nil => simp [parseStrBody] at h
    | cons c rest =>
      simp only [parseStrBody] at h
      by_cases h1 : c = qu
      · rw [if_pos h1] at h
        obtain rfl := Option.some.inj h
        exact List.suffix_cons c rest
      · rw [if_neg h1] at h
        by_cases h2 : c = bsl
        · rw [if_pos h2] at h
          cases rest with
          | nil => simp at h
          | cons e rest2 =>
            simp only [Option.map_eq_some'] at h
            obtain ⟨a, hp2, heq⟩ := h
            subst heq
            exact ((ih rest2 a hp2).trans (List.suffix_cons e rest2)).trans
              (List.suffix_cons c (e :: rest2))
        · rw [if_neg h2] at h
          simp only [Option.map_eq_some'] at h
          obtain ⟨a, hp2, heq⟩ := h
          subst heq
          exact (ih rest a hp2).trans (List.suffix_cons c rest)

theorem parseGo_suffix : ∀ (f : Nat) (req : PReq) (p : PyVal × List Char),
    parseGo f req = some p → p.2 <:+ req.chars := by
  intro f
  induction f with
  | zero => intro req p h; simp [parseGo] at h
  | succ f ih =>
    intro req p h
    cases req with
    | val cs =>
      simp only [parseGo] at h
      cases hd : dropWs cs with
      | nil => simp [hd] at h
      | cons c r0 =>
        simp only [hd] at h
        have hr0 : r0 <:+ cs := cons_suffix_of_dropWs hd
        have hcr0 : c :: r0 <:+ cs := hd ▸ suffix_dropWs cs
        by_cases h1 : c = qu
        · rw [if_pos h1] at h
          simp only [Option.map_eq_some'] at h
          obtain ⟨a, hsb, heq⟩ := h
          subst heq
          exact (parseStrBody_suffix f r0 a hsb).trans hr0
        · rw [if_neg h1] at h
          by_cases h2 : c = obr
          · rw [if_pos h2] at h
            cases hec : expectChar cbr r0 with
            | some r2 =>
              simp only [hec] at h
              obtain rfl := Option.some.inj h
              exact (expectChar_suffix hec).trans hr0
            | none =>
              simp only [hec] at h
              simp only [Option.bind_eq_some, Option.map_eq_some'] at h
              obtain ⟨pm, hpg, m2, hasm, r4, hec2, heq⟩ := h
              subst heq
              exact (expectChar_suffix hec2).trans ((ih _ pm hpg).trans hr0)
          · rw [if_neg h2] at h
            by_cases h3 : c = osq
            · rw [if_pos h3] at h
              cases hec : expectChar csq r0 with
              | some r2 =>
                simp only [hec] at h
                obtain rfl := Option.some.inj h
                exact (expectChar_suffix hec).trans hr0
              | none =>
                simp only [hec] at h
                simp only [Option.bind_eq_some, Option.map_eq_some'] at h
                obtain ⟨pe, hpg, l2, hasl, r4, hec2, heq⟩ := h
                subst heq
                exact (expectChar_suffix hec2).trans ((ih _ pe hpg).trans hr0)
            · rw [if_neg h3] at h
              by_cases h4 : c = 'n'
              · rw [if_pos h4] at h
                simp only [Option.map_eq_some'] at h
                obtain ⟨a, hex, heq⟩ := h
                subst heq
                exact (expectLit_suffix hex).trans hr0
              · rw [if_neg h4] at h
                by_cases h5 : c = 't'
                · rw [if_pos h5] at h
                  simp only [Option.map_eq_some'] at h
                  obtain ⟨a, hex, heq⟩ := h
                  subst heq
                  exact (expectLit_suffix hex).trans hr0
                · rw [if_neg h5] at h
                  by_cases h6 : c = 'f'
                  · rw [if_pos h6] at h
                    simp only [Option.map_eq_some'] at h
                    obtain ⟨a, hex, heq⟩ := h
                    subst heq
                    exact (expectLit_suffix hex).trans hr0
                  · rw [if_neg h6] at h
                    by_cases h7 : c = '-'
                    · rw [if_pos h7] at h
                      simp only [Option.map_eq_some'] at h
                      obtain ⟨a, hpd, heq⟩ := h
                      subst heq
                      exact (parseDigits_suffix hpd).trans hr0
                    · rw [if_neg h7] at h
                      by_cases h8 : c.isDigit = true
                      · rw [if_pos h8] at h
                        simp only [Option.map_eq_some'] at h
                        obtain ⟨a, hpd, heq⟩ := h
                        subst heq
                        exact (parseDigits_suffix hpd).trans hcr0
                      · rw [if_neg h8] at h
                        exact absurd h (by simp)
    | members cs =>
      simp only [parseGo] at h
      cases hd : dropWs cs with
      | nil => simp [hd] at h
      | cons c r0 =>
        simp only [hd] at h
        have hr0 : r0 <:+ cs := cons_suffix_of_dropWs hd
        by_cases h1 : c = qu
        · rw [if_pos h1] at h
          simp only [Option.bind_eq_some] at h
          obtain ⟨pk, hsb, r3, hec, pv, hvp, h⟩ := h
          have hs2 : pk.2 <:+ r0 := parseStrBody_suffix f r0 pk hsb
          have hs3 : r3 <:+ pk.2 := expectChar_suffix hec
          have hs4 : pv.2 <:+ r3 := ih _ pv hvp
          have hchain : pv.2 <:+ cs := hs4.trans (hs3.trans (hs2.trans hr0))
          cases hd2 : dropWs pv.2 with
          | nil =>
            simp only [hd2] at h
            obtain rfl := Option.some.inj h
            exact hchain
          | cons c3 r5 =>
            simp only [hd2] at h
            by_cases h3 : c3 = ','
            · rw [if_pos h3] at h
              simp only [Option.bind_eq_some, Option.map_eq_some'] at h
              obtain ⟨pm, hm2, m2, hasm, heq⟩ := h
              subst heq
              exact (ih _ pm hm2).trans ((cons_suffix_of_dropWs hd2).trans hchain)
            · rw [if_neg h3] at h
              obtain rfl := Option.some.inj h
              exact hchain
        · rw [if_neg h1] at h
          exact absurd h (by simp)
    | elements cs =>
      simp only [parseGo] at h
      simp only [Option.bind_eq_some] at h
      obtain ⟨pv, hv1, h⟩ := h
      have hc1 : pv.2 <:+ cs := ih _ pv hv1
      cases hd : dropWs pv.2 with
      | nil =>
        simp only [hd] at h
        obtain rfl := Option.some.inj h
        exact hc1
      | cons c r2 =>
        simp only [hd] at h
        by_cases h1 : c = ','
        · rw [if_pos h1] at h
          simp only [Option.bind_eq_some, Option.map_eq_some'] at h
          obtain ⟨pe, he2, l2, hasl, heq⟩ := h
          subst heq
          exact (ih _ pe he2).trans ((cons_suffix_of_dropWs hd).trans hc1)
        · rw [if_neg h1] at h
          obtain rfl := Option.some.inj h
          exact hc1

theorem parseGo_val_btick (f : Nat) (tl : List Char) :
    parseGo f (.val (btick :: tl)) = none := by
  cases f with
  | zero => rfl
  | succ f => rfl

theorem parseGo_val_obj_ends (f : Nat) (cs : List Char) (m : List (String × PyVal))
    (h : parseGo f (.val cs) = some (PyVal.obj m, [])) :
    ∃ pre, cs = pre ++ [cbr] := by
  cases f with
  | zero => simp [parseGo] at h
  | succ f =>
    simp only [parseGo] at h
    cases hd : dropWs cs with
    | nil => simp [hd] at h
    | cons c r0 =>
      simp only [hd] at h
      obtain ⟨W, hW⟩ : ∃ W, cs = W ++ (c :: r0) := by
        refine ⟨cs.takeWhile isWs, ?_⟩
        rw [← hd]
        exact (List.takeWhile_append_dropWhile isWs cs).symm
      by_cases h1 : c = qu
      · rw [if_pos h1] at h
        simp only [Option.map_eq_some'] at h
        obtain ⟨a, _, heq⟩ := h
        simp at heq
      · rw [if_neg h1] at h
        by_cases h2 : c = obr
        · rw [if_pos h2] at h
          cases hec : expectChar cbr r0 with
          | some r2 =>
            simp only [hec] at h
            have hinj := Option.some.inj h
            have hr2 : r2 = [] := congrArg Prod.snd hinj
            subst hr2
            obtain ⟨w, hw⟩ := expectChar_some_decomp hec
            refine ⟨W ++ c :: w, ?_⟩
            rw [hW, hw]
            simp
          | none =>
            simp only [hec] at h
            simp only [Option.bind_eq_some, Option.map_eq_some'] at h
            obtain ⟨pm, hpg, m2, hasm, r4, hec2, heq⟩ := h
            have hr4 : r4 = [] := congrArg Prod.snd heq
            subst hr4
            obtain ⟨w, hw⟩ := expectChar_some_decomp hec2
            obtain ⟨u, hu⟩ := parseGo_suffix f _ pm hpg
            have hu2 : u ++ pm.2 = r0 := hu
            refine ⟨W ++ c :: (u ++ w), ?_⟩
            rw [hW, ← hu2, hw]
            simp
        · rw [if_neg h2] at h
          by_cases h3 : c = osq
          · rw [if_pos h3] at h
            cases hec : expectChar csq r0 with
            | some r2 =>
              simp only [hec] at h
              simp at h
            | none =>
              simp only [hec] at h
              simp only [Option.bind_eq_some, Option.map_eq_some'] at h
              obtain ⟨pe, _, l2, _, heq⟩ := h
              simp at heq
          · rw [if_neg h3] at h
            by_cases h4 : c = 'n'
            · rw [if_pos h4] at h
              simp only [Option.map_eq_some'] at h
              obtain ⟨a, _, heq⟩ := h
              simp at heq
            · rw [if_neg h4] at h
              by_cases h5 : c = 't'
              · rw [if_pos h5] at h
                simp only [Option.map_eq_some'] at h
                obtain ⟨a, _, heq⟩ := h
                simp at heq
              · rw [if_neg h5] at h
                by_cases h6 : c = 'f'
                · rw [if_pos h6] at h
                  simp only [Option.map_eq_some'] at h
                  obtain ⟨a, _, heq⟩ := h
                  simp at heq
                · rw [if_neg h6] at h
                  by_cases h7 : c = '-'
                  · rw [if_pos h7] at h
                    simp only [Option.map_eq_some'] at h
                    obtain ⟨a, _, heq⟩ := h
                    simp at heq
                  · rw [if_neg h7] at h
                    by_cases h8 : c.isDigit = true
                    · rw [if_pos h8] at h
                      simp only [Option.map_eq_some'] at h
                      obtain ⟨a, _, heq⟩ := h
                      simp at heq
                    · rw [if_neg h8] at h
                      exact absurd h (by simp)

theorem jsonLoadsChars_inv (cs : List Char) (v : PyVal)
    (h : jsonLoadsChars cs = some v) :
    parseGo (2 * (stripChars cs).length + 2) (.val (stripChars cs)) = some (v, []) := by
  unfold jsonLoadsChars at h
  cases hp : parseGo (2 * (stripChars cs).length + 2) (.val (stripChars cs)) with
  | none => rw [hp] at h; simp at h
  | some pr =>
    rw [hp] at h
    obtain ⟨v2, rest2⟩ := pr
    by_cases hr : rest2 = []
    · subst hr
      simp only [if_pos rfl] at h
      obtain rfl := Option.some.inj h
      rfl
    · simp only [if_neg hr] at h
      exact absurd h (by simp)

theorem matchesOutputSchema_obj (v : PyVal) (h : matchesOutputSchema v = true) :
    ∃ m, v = PyVal.obj m := by
  cases v <;> first
  | exact ⟨_, rfl⟩
  | simp [matchesOutputSchema] at h

theorem cleanStr_of_parsed_obj (s : List Char) (m : List (String × PyVal))
    (hparse : jsonLoadsChars s = some (PyVal.obj m)) :
    cleanStr s = Except.ok (PyVal.obj m) := by
  have hex := jsonLoadsChars_inv s _ hparse
  have hnotpre : fenceOpen.isPrefixOf (stripChars s) = false := by
    cases hb : fenceOpen.isPrefixOf (stripChars s) with
    | false => rfl
    | true =>
      obtain ⟨u, hu⟩ := List.isPrefixOf_iff_prefix.mp hb
      have hbt : stripChars s = btick :: ([btick, btick, 'j', 's', 'o', 'n'] ++ u) := by
        rw [← hu]; rfl
      rw [hbt] at hex
      rw [parseGo_val_btick] at hex
      exact absurd hex (by simp)
  have hnotsuf : fenceClose.isSuffixOf (stripChars s) = false := by
    cases hb : fenceClose.isSuffixOf (stripChars s) with
    | false => rfl
    | true =>
      obtain ⟨pre, hpre2⟩ := parseGo_val_obj_ends _ _ _ hex
      have h1 : (stripChars s).getLast? = some cbr := by
        rw [hpre2]
        exact List.getLast?_concat _
      obtain ⟨u, hu⟩ := List.isSuffixOf_iff_suffix.mp hb
      have h2 : (stripChars s).getLast? = some btick := by
        rw [← hu]
        have hfc : fenceClose = [btick, btick, btick] := rfl
        have h3 : u ++ fenceClose = (u ++ [btick, btick]) ++ [btick] := by
          rw [hfc]; simp
        rw [h3]
        exact List.getLast?_concat _
      rw [h1] at h2
      have hcb : cbr = btick := by simpa using h2
      exact absurd hcb (by decide)
  simp [cleanStr, hnotpre, hnotsuf, jsonLoadsChars_strip, hparse]

/-- C4: for every string that is a syntactically valid JSON serialization
of a structured response matching the Output Schema, the normalizer
returns exactly the parsed value of that string — no field dropped,
altered or reordered — and that value is the Tailored Resume handed to
the renderer. -/
theorem valid_json_response_preserved (env : Env) (out tmpl : String)
    (p v : PyVal) (j sch rsp : String)
    (hp : env.profileLoad = Except.ok p) (hj : env.jobLoad = Except.ok j)
    (hs : get_json_structure env.structuresFile tmpl = Except.ok (some sch)) (hne : sch ≠ "")
    (hpr : ∃ pr, generate_prompt p j sch = Except.ok pr)
    (hresp : env.localResp = Except.ok (PyVal.obj [("response", PyVal.str rsp)]))
    (hparse : jsonLoads rsp = some v)
    (hschema : matchesOutputSchema v = true) :
    clean_response (PyVal.str rsp) = Except.ok v ∧
    (mainRun env out tmpl).resume = some v := by
  obtain ⟨m, rfl⟩ := matchesOutputSchema_obj v hschema
  obtain ⟨pr, hpr⟩ := hpr
  have hclean : cleanStr rsp.toList = Except.ok (PyVal.obj m) :=
    cleanStr_of_parsed_obj rsp.toList m hparse
  have hcleanv : clean_response (PyVal.str rsp) = Except.ok (PyVal.obj m) := hclean
  have hlk : lookupStr [("response", PyVal.str rsp)] "response" = some (PyVal.str rsp) := rfl
  have hloc : localFetch env = Except.ok (PyVal.str rsp) := by
    simp [localFetch, hresp, hlk]
  have htail : tailorStep env p pr = ([Event.localCall], Except.ok (PyVal.obj m)) := by
    simp [tailorStep, prompt_llm_local, hloc, hcleanv]
  exact ⟨hcleanv,
    (mainRun_after_tailor_ok env out tmpl p j sch pr _ _ hp hj hs hne hpr htail).1⟩

theorem valid_json_response_preserved_witness :
    clean_response (PyVal.str c4resp) = Except.ok c4val ∧
    (mainRun { envOkBase with localResp := Except.ok (PyVal.obj [("response", PyVal.str c4resp)]) }
        "out.pdf" "t").resume = some c4val :=
  valid_json_response_preserved _ "out.pdf" "t" _ c4val _ "1" c4resp
    rfl rfl rfl (by decide) ⟨_, rfl⟩ rfl rfl rfl
